import Mathlib

/-!
Verification of the trigger-matching and lifecycle core of the UltiSnips
snippet engine (pythonx/UltiSnips/snippet/definition/base.py).

The Python source is shallowly embedded below.  Pure string manipulation is
translated to executable Lean functions over `String`/`List Char`, mirroring
the exact Python semantics (negative slices, `rfind` returning -1,
`re.split` keeping empty words, and so on).  Stateful editor interaction
(buffer, cursor, marks) is embedded as explicit state passing over an
`EditorState` record; user action scripts become functions from editor state
to editor state plus a result.  Exceptions become `Except`.  The Python
regular-expression scanner (`re.finditer`) is embedded as a small regex
engine with Python matching priority (leftmost scan, non-overlapping
advance, alternation tries the left branch first).
-/

/-- Whitespace set of Python str.strip and of the regex class backslash-s. -/
def pyIsSpace (c : Char) : Bool :=
  c = ' ' || c = '\t' || c = '\n' || c = '\r' || c = '\x0b' || c = '\x0c'

/-- Space or tab, the characters stripped by strip of a space-tab pair and
matched by the leading-indent pattern of the launcher. -/
def isSpTab (c : Char) : Bool :=
  c = ' ' || c = '\t'

/-- Python s[:n] for a nonnegative character index. -/
def myTake (s : String) (n : Nat) : String :=
  String.mk (s.data.take n)

/-- Python s[n:] for a nonnegative character index. -/
def myDrop (s : String) (n : Nat) : String :=
  String.mk (s.data.drop n)

/-- Python str.rstrip with no arguments. -/
def pyRstrip (s : String) : String :=
  String.mk ((s.data.reverse.dropWhile pyIsSpace).reverse)

/-- Python str.strip with no arguments. -/
def pyStrip (s : String) : String :=
  String.mk (((s.data.dropWhile pyIsSpace).reverse.dropWhile pyIsSpace).reverse)

/-- Python str.strip with the two-character argument of one space and one tab. -/
def pyStripSpTab (s : String) : String :=
  String.mk (((s.data.dropWhile isSpTab).reverse.dropWhile isSpTab).reverse)

/-- Python s[:-n] for n given as a Nat.  Note that -0 = 0, so n = 0 yields
the empty string, exactly as in Python. -/
def pySliceToNeg (s : String) (n : Nat) : String :=
  if n = 0 then "" else myTake s (s.length - n)

/-- Python s[-n:] for n given as a Nat.  n = 0 yields the whole string. -/
def pySliceFromNeg (s : String) (n : Nat) : String :=
  if n = 0 then s else myDrop s (s.length - n)

/-- Python s[:i] for an Int index: negative indices count from the end and
are clamped at zero. -/
def pySliceToIdx (s : String) (i : Int) : String :=
  if 0 ≤ i then myTake s i.toNat else myTake s (s.length - i.natAbs)

/-- Python str.rfind: the greatest start index of an occurrence of sub in s,
or -1 when sub does not occur.  An empty sub is found at index len(s). -/
def pyRfind (s sub : String) : Int :=
  match ((List.range (s.length + 1)).filter
      (fun k => sub.data.isPrefixOf (s.data.drop k))).getLast? with
  | some k => Int.ofNat k
  | none => -1

/-- Helper of split_at_whitespace: split a character list at every single
whitespace character, keeping empty words. -/
def splitWsChars : List Char → List (List Char)
  | [] => [[]]
  | c :: cs =>
    if pyIsSpace c then [] :: splitWsChars cs
    else
      match splitWsChars cs with
      | [] => [[c]]
      | w :: ws => (c :: w) :: ws

/-- split_at_whitespace from base.py: re.split on a single-whitespace
pattern, which splits at every whitespace character and keeps empty words
(unlike str.split, which drops them). -/
def split_at_whitespace (s : String) : List String :=
  (splitWsChars s.data).map String.mk

/-- The truncation loop of _words_for_line: repeatedly cut the working
string at the last occurrence (rfind, Python slicing of a possibly
negative index) of each of the given words. -/
def cutWords : String → List String → String
  | bw, [] => bw
  | bw, w :: ws => cutWords (pySliceToIdx bw (pyRfind bw w)) ws

/-- _words_for_line from base.py: the final num words of before, where num
defaults to the word count of the trigger. -/
def words_for_line (trigger before : String) (numWords : Option Nat) : String :=
  let num := numWords.getD (split_at_whitespace trigger).length
  let wl := split_at_whitespace before
  if wl.length ≤ num then pyStrip before
  else pyStrip (myDrop before (cutWords before (wl.reverse.take num)).length)


/-! ### A model of the Python regular-expression scanner

Only the regex constructs needed by the claims are embedded; the matching
priority (alternation tries the left branch first, scanning is leftmost and
non-overlapping with the Python advance rule for zero-width matches)
follows re.finditer. -/

/-- Abstract syntax of the embedded regular expressions. -/
inductive Regex where
  | eps
  | char (c : Char)
  | cat (a b : Regex)
  | alt (a b : Regex)
deriving DecidableEq, Repr

/-- All possible remainders after matching r against the front of l, in
Python backtracking priority order (head is the match Python commits to). -/
def pyMatchEnds : Regex → List Char → List (List Char)
  | .eps, l => [l]
  | .char c, l =>
    match l with
    | [] => []
    | d :: rest => if d = c then [rest] else []
  | .cat a b, l => (pyMatchEnds a l).flatMap (pyMatchEnds b)
  | .alt a b, l => pyMatchEnds a l ++ pyMatchEnds b l

/-- The end position of the match Python commits to when matching r inside
s at start position i, when there is one. -/
def pyMatchAt (r : Regex) (s : String) (i : Nat) : Option Nat :=
  (pyMatchEnds r (s.data.drop i)).head?.map (fun rem => s.length - rem.length)

/-- The scanning loop of re.finditer: from position p, emit the match at the
leftmost matching position, then continue behind it (one further on a
zero-width match). -/
def finditerAux (r : Regex) (s : String) : Nat → Nat → List (Nat × Nat)
  | 0, _ => []
  | fuel + 1, p =>
    if s.length < p then []
    else
      match pyMatchAt r s p with
      | none => finditerAux r s fuel (p + 1)
      | some e => (p, e) :: finditerAux r s fuel (if e = p then p + 1 else e)

/-- re.finditer over the whole string: the spans of the non-overlapping
left-to-right scan. -/
def finditer (r : Regex) (s : String) : List (Nat × Nat) :=
  finditerAux r s (s.length + 2) 0

/-- The span filter loop of _re_match: skip every scanned match whose end is
not the cursor position and return the first remaining one. -/
def reMatchLoop (n : Nat) : List (Nat × Nat) → Option (Nat × Nat)
  | [] => none
  | sp :: rest => if sp.2 ≠ n then reMatchLoop n rest else some sp

/-- _re_match from base.py: the first scanned match of the trigger pattern
whose end position equals the length of the text before the cursor. -/
def re_match (r : Regex) (s : String) : Option (Nat × Nat) :=
  reMatchLoop s.length (finditer r s)

/-- The text of a span inside s (Python s[a:b]). -/
def spanText (s : String) (sp : Nat × Nat) : String :=
  myTake (myDrop s sp.1) (sp.2 - sp.1)

/-- Whether some match of r (any start, any backtracking alternative) ends
exactly at the end of s.  This is the declarative reading of the claim
about the regex mode, independent of the non-overlapping scan. -/
def existsMatchToEnd (r : Regex) (s : String) : Bool :=
  (List.range (s.length + 1)).any
    (fun i => (pyMatchEnds r (s.data.drop i)).any (fun rem => rem.isEmpty))

/-! ### The SnippetDefinition matcher -/

/-- Membership test of an option flag in the options string
(Python: opt in self._opts). -/
def hasOpt (opts : String) (c : Char) : Bool :=
  opts.data.contains c

/-- The match-scratch state written by matches and could_match: the success
flag returned, the recorded matched substring, and the span recorded as the
last regex match when the regex branch ran. -/
structure MatchOut where
  ok : Bool
  matched : String
  lastRe : Option (Nat × Nat)
deriving DecidableEq, Repr

/-- The diagnostic block attached to an error by _make_debug_exception. -/
structure SnippetInfo where
  location : String
  trigger : String
  description : String
  contextInfo : String
  preExpandInfo : String
  postExpandInfo : String
deriving DecidableEq, Repr

/-- The errors this core can raise: a script or regex error enriched with
diagnostics, an AttributeError raised while building the diagnostics, the
PebkacError of the cursor guard, and the IndexError of indexing an empty
stack. -/
inductive SnipErr where
  | enriched (msg : String) (info : SnippetInfo)
  | attrError (attr : String)
  | usage (msg : String)
  | indexError
deriving DecidableEq, Repr

/-- The fields of the definition that _make_debug_exception reads.  The
actionsDict field is none exactly when the _actions attribute has not been
assigned yet, which is the state during the matches call made by
SnippetDefinition.__init__. -/
structure DebugCtx where
  location : String
  trigger : String
  description : String
  contextCode : Option String
  actionsDict : Option (List (String × String))
deriving DecidableEq, Repr

/-- Lookup in the actions dictionary. -/
def dictGet (d : List (String × String)) (k : String) : Option String :=
  (d.find? (fun kv => kv.1 == k)).map (fun kv => kv.2)

/-- _make_debug_exception from base.py: build the diagnostic info.  Reading
self._actions before __init__ assigns it raises AttributeError, which is
modelled by the error branch. -/
def make_debug_info (d : DebugCtx) : Except SnipErr SnippetInfo :=
  match d.actionsDict with
  | none => .error (.attrError "_actions")
  | some acts =>
    .ok { location := d.location
          trigger := d.trigger
          description := d.description
          contextInfo :=
            match d.contextCode with
            | some c => if c = "" then "<none>" else c
            | none => "<none>"
          preExpandInfo := (dictGet acts "pre_expand").getD "<none>"
          postExpandInfo := (dictGet acts "post_expand").getD "<none>" }

/-- Attach diagnostics to a raised message, as the except blocks of matches
and _eval_code do; when building the diagnostics itself raises, that new
error replaces the original one. -/
def enrichErr (d : DebugCtx) (msg : String) : SnipErr :=
  match make_debug_info d with
  | .error e => e
  | .ok info => .enriched msg info

/-- The mode dispatch of SnippetDefinition.matches (the regex, word,
in-word and exact branches) followed by the default fill of the matched
substring with the full trigger.  The word-boundary test done through the
host editor is the parameter wb (it receives the two characters around the
boundary); the compiled trigger pattern of the regex mode is the parameter
pat, an error value standing for a pattern whose compilation fails. -/
def SnippetDefinition.matches_core (opts trigger : String)
    (pat : Except String Regex) (wb : Char → Char → Bool) (dbg : DebugCtx)
    (before : String) : Except SnipErr MatchOut :=
  let words := words_for_line trigger before none
  let core : Except SnipErr MatchOut :=
    if hasOpt opts 'r' then
      match pat with
      | .error msg => .error (enrichErr dbg msg)
      | .ok r =>
        match re_match r before with
        | some sp => .ok ⟨true, spanText before sp, some sp⟩
        | none => .ok ⟨false, "", none⟩
    else if hasOpt opts 'w' then
      let wlen := trigger.length
      let wordsPre := pySliceToNeg words wlen
      let wordsSuf := pySliceFromNeg words wlen
      let m : Bool :=
        if (wordsSuf == trigger) && (wordsPre != "") then
          wb ((wordsPre.data.getLast?).getD ' ') ((wordsSuf.data.head?).getD ' ')
        else wordsSuf == trigger
      .ok ⟨m, "", none⟩
    else if hasOpt opts 'i' then
      .ok ⟨trigger.data.isSuffixOf words.data, "", none⟩
    else
      .ok ⟨words == trigger, "", none⟩
  core.map (fun m => if m.ok && (m.matched == "") then { m with matched := trigger } else m)

/-- The word-boundary post filter of flag b, shared by matches and
could_match: on a successful match, the text of before with trailing
whitespace stripped and len(matched) further characters cut from its end
must be blank, otherwise the match is rejected and the matched substring
reset. -/
def bCheck (opts before : String) (m : MatchOut) : MatchOut :=
  if hasOpt opts 'b' && m.ok then
    if pyStripSpTab (pySliceToNeg (pyRstrip before) m.matched.length) != "" then
      ⟨false, "", m.lastRe⟩
    else m
  else m

/-- The context step of matches: when a context predicate is present and the
match succeeded so far, a falsy context result turns the match off (the
recorded matched substring is not reset).  The truthiness of the evaluated
context on before is the parameter ctxTruthy. -/
def ctxCheck (hasCtx : Bool) (ctxTruthy : String → Bool) (before : String)
    (m : MatchOut) : MatchOut :=
  if m.ok && hasCtx && !(ctxTruthy before) then { m with ok := false } else m

/-- SnippetDefinition.matches from base.py. -/
def SnippetDefinition.matches (opts trigger : String) (pat : Except String Regex)
    (wb : Char → Char → Bool) (hasCtx : Bool) (ctxTruthy : String → Bool)
    (dbg : DebugCtx) (before : String) : Except SnipErr MatchOut :=
  (SnippetDefinition.matches_core opts trigger pat wb dbg before).map
    (fun m => ctxCheck hasCtx ctxTruthy before (bCheck opts before m))

/-- The reassignment at the top of could_match: a before ending in a blank
or a tab is replaced by the empty string. -/
def cmBlanked (before : String) : String :=
  match before.data.getLast? with
  | some c => if c = ' ' || c = '\t' then "" else before
  | none => before

/-- The mode dispatch of SnippetDefinition.could_match, including the two
leading blank-text guards, followed by the default fill of the matched
substring with the word window.  The host-editor substitution that trims a
prefix up to a word boundary in the w mode is the parameter substF; the
regex branch runs the full-match test and is not protected by a try block,
so a failing pattern propagates its raw message. -/
def SnippetDefinition.could_match_core (opts trigger : String)
    (pat : Except String Regex) (substF : String → String)
    (before0 : String) : Except String MatchOut :=
  let before := cmBlanked before0
  if before != "" && decide (pyRstrip before ≠ before) then .ok ⟨false, "", none⟩
  else
    let words := words_for_line trigger before none
    let core : Except String MatchOut :=
      if hasOpt opts 'r' then
        match pat with
        | .error msg => .error msg
        | .ok r =>
          match re_match r before with
          | some sp => .ok ⟨true, spanText before sp, some sp⟩
          | none => .ok ⟨false, "", none⟩
      else if hasOpt opts 'w' then
        let wordsSuf := substF words
        .ok ⟨wordsSuf.data.isPrefixOf trigger.data && (wordsSuf == words), wordsSuf, none⟩
      else if hasOpt opts 'i' then
        .ok ⟨words.data.isPrefixOf trigger.data, "", none⟩
      else
        .ok ⟨words.data.isPrefixOf trigger.data, "", none⟩
    core.map (fun m => if m.ok && (m.matched == "") then { m with matched := words } else m)

/-- SnippetDefinition.could_match from base.py. -/
def SnippetDefinition.could_match (opts trigger : String)
    (pat : Except String Regex) (substF : String → String)
    (before0 : String) : Except String MatchOut :=
  (SnippetDefinition.could_match_core opts trigger pat substF before0).map
    (bCheck opts (cmBlanked before0))

/-! ### Cursor handle, editor state, cursor guard, lifecycle hooks -/

/-- _SnippetUtilCursor: a zero-based cursor handle with the user-set flag. -/
structure SnippetUtilCursor where
  cur : Nat × Nat
  setFlag : Bool
deriving DecidableEq, Repr

/-- _SnippetUtilCursor.__init__: convert a one-based editor cursor to the
zero-based handle; the handle starts not set. -/
def SnippetUtilCursor.init (vimCursor : Nat × Nat) : SnippetUtilCursor :=
  ⟨(vimCursor.1 - 1, vimCursor.2), false⟩

/-- _SnippetUtilCursor.preserve from base.py: the handle is overwritten with
the current real cursor, and the _set flag is assigned True. -/
def SnippetUtilCursor.preserve (_c : SnippetUtilCursor) (realCursor : Nat × Nat) :
    SnippetUtilCursor :=
  ⟨realCursor, true⟩

/-- _SnippetUtilCursor.is_set. -/
def SnippetUtilCursor.is_set (c : SnippetUtilCursor) : Bool :=
  c.setFlag

/-- _SnippetUtilCursor.__setitem__: any write marks the handle as set. -/
def SnippetUtilCursor.setItem (c : SnippetUtilCursor) (index value : Nat) :
    SnippetUtilCursor :=
  ⟨if index = 0 then (value, c.cur.2) else (c.cur.1, value), true⟩

/-- _SnippetUtilCursor.set. -/
def SnippetUtilCursor.setPos (c : SnippetUtilCursor) (line column : Nat) :
    SnippetUtilCursor :=
  (c.setItem 0 line).setItem 1 column

/-- _SnippetUtilCursor.to_vim_cursor: back to the one-based convention. -/
def SnippetUtilCursor.to_vim_cursor (c : SnippetUtilCursor) : Nat × Nat :=
  (c.cur.1 + 1, c.cur.2)

/-- Modelled from the spec: the host editor adapter (vim_helper) provides
buffer lines, a zero-based cursor, and one transient mark; an invalidated
mark (position zero in the host) is the none value. -/
structure EditorState where
  lines : List String
  cursor : Nat × Nat
  markPos : Option (Nat × Nat)
deriving DecidableEq, Repr

/-- vim_helper.buf.line_till_cursor: the text of the cursor line up to the
cursor column. -/
def line_till_cursor (s : EditorState) : String :=
  myTake (s.lines.getD s.cursor.1 "") s.cursor.2

/-- The result object (snip) an action script leaves behind: its cursor
handle and the context value it stored. -/
structure SnipResult (α : Type) where
  cursor : SnippetUtilCursor
  context : α
deriving DecidableEq, Repr

/-- The PebkacError message raised by the cursor guard (the doubled word is
in the source). -/
def pebkacMsg : String :=
  "line under the cursor was modified, but \"snip.cursor\" variable is not set; either set set \"snip.cursor\" to new cursor position, or do not modify cursor line"

/-- SnippetDefinition._execute_action from base.py: place the transient mark
at the cursor, snapshot the line up to the cursor, run the script, then
either honour an explicitly set cursor handle, or restore the cursor from
the surviving mark provided the mark is still valid and the snapshot line
is unchanged; otherwise raise the usage error.  The saved mark value is
restored on the way out (the with-block of save_mark). -/
def execute_action {α : Type} (script : EditorState → EditorState × SnipResult α)
    (s : EditorState) : Except SnipErr (EditorState × SnipResult α) :=
  let savedMark := s.markPos
  let s0 : EditorState := { s with markPos := some s.cursor }
  let lineBefore := line_till_cursor s0
  let s1 := (script s0).1
  let snip := (script s0).2
  if snip.cursor.is_set then
    .ok ({ s1 with cursor := snip.cursor.cur, markPos := savedMark }, snip)
  else
    match s1.markPos with
    | none => .error (.usage pebkacMsg)
    | some mp =>
      if line_till_cursor { s1 with cursor := mp } ≠ lineBefore then
        .error (.usage pebkacMsg)
      else
        .ok ({ s1 with cursor := mp, markPos := savedMark }, snip)

/-- The handle this core keeps for a live snippet instance: an identifying
payload and the read-write context slot the lifecycle hooks thread. -/
structure SnipInstance (α : Type) where
  payload : Nat
  context : α
deriving DecidableEq, Repr

/-- SnippetDefinition.do_post_expand from base.py: when a post_expand action
is present, run it through the cursor guard with the context of the last
stack entry, store the resulting context back into that entry, and report
whether the script set the cursor; without the action, report false.  Indexing
an empty stack raises, as Python list indexing does. -/
def do_post_expand {α : Type}
    (postExpandAct : Option (α → EditorState → EditorState × SnipResult α))
    (stack : List (SnipInstance α)) (s : EditorState) :
    Except SnipErr (Bool × List (SnipInstance α) × EditorState) :=
  match postExpandAct with
  | none => .ok (false, stack, s)
  | some act =>
    match stack.getLast? with
    | none => .error .indexError
    | some top =>
      match execute_action (act top.context) s with
      | .error e => .error e
      | .ok (s1, snip) =>
        .ok (snip.cursor.is_set,
             stack.dropLast ++ [{ top with context := snip.context }], s1)

/-! ### The launcher text computation -/

/-- The leading-indent regex of launch (spaces and tabs at the start). -/
def indentOf (s : String) : String :=
  String.mk (s.data.takeWhile isSpTab)

/-- The leading-tabs regex of launch. -/
def leadingTabs (s : String) : Nat :=
  (s.data.takeWhile (fun c => c = '\t')).length

/-- Helper of bodyLines: split a character list at every newline. -/
def splitNl : List Char → List (List Char)
  | [] => [[]]
  | c :: cs =>
    if c = '\n' then [] :: splitNl cs
    else
      match splitNl cs with
      | [] => [[c]]
      | w :: ws => (c :: w) :: ws

/-- The lines the launcher iterates over: Python splitlines applied to the
body with one newline appended. -/
def bodyLines (value : String) : List String :=
  ((splitNl (value ++ "\n").data).map String.mk).dropLast

/-- The indentation loop of SnippetDefinition.launch: unless flag t is set,
count the leading literal tabs of each line and hand them to the external
indent utility (the parameter ntabsToIndent); every line after the first is
additionally prefixed with the indent of the launch line; flag m right
trims each resulting line. -/
def buildLines (opts : String) (ntabsToIndent : Nat → String) (indent : String) :
    Nat → List String → List String
  | _, [] => []
  | lineNum, line :: rest =>
    let tabs := if hasOpt opts 't' then 0 else leadingTabs line
    let lineInd0 := ntabsToIndent tabs
    let lineInd := if lineNum ≠ 0 then indent ++ lineInd0 else lineInd0
    let resultLine := lineInd ++ myDrop line tabs
    let resultLine := if hasOpt opts 'm' then pyRstrip resultLine else resultLine
    resultLine :: buildLines opts ntabsToIndent indent (lineNum + 1) rest

/-- The initial_text computed by SnippetDefinition.launch before the
instance is handed to the external text-object system. -/
def computeInitialText (opts : String) (ntabsToIndent : Nat → String)
    (textBefore value : String) : String :=
  String.intercalate "\n"
    (buildLines opts ntabsToIndent (indentOf textBefore) 0 (bodyLines value))

/-! ### Construction -/

/-- The immutable record SnippetDefinition.__init__ builds on success. -/
structure SnippetDefn where
  priority : Int
  trigger : String
  value : String
  description : String
  opts : String
  matched : String
  lastRe : Option (Nat × Nat)
  location : String
  contextCode : Option String
  actions : List (String × String)
deriving DecidableEq, Repr

/-- SnippetDefinition.__init__ from base.py: after storing the plain fields
it calls self.matches on the trigger itself, with the context code
temporarily None, and crucially before self._actions is assigned — so the
debug context passed to that call has no actions dictionary yet.  Only when
that call returns are the context code and the actions stored. -/
def snippet_def_init (priority : Int) (trigger value description opts location : String)
    (contextCode : Option String) (actions : List (String × String))
    (pat : Except String Regex) (wb : Char → Char → Bool) :
    Except SnipErr SnippetDefn :=
  let dbg : DebugCtx :=
    { location := location, trigger := trigger, description := description,
      contextCode := none, actionsDict := none }
  match SnippetDefinition.matches opts trigger pat wb false (fun _ => false) dbg trigger with
  | .error e => .error e
  | .ok m =>
    .ok { priority := priority, trigger := trigger, value := value,
          description := description, opts := opts, matched := m.matched,
          lastRe := m.lastRe, location := location, contextCode := contextCode,
          actions := actions }

/-! ### Definitions written from the words of the specification

These are used only to compare the specified behaviour with the embedded
source behaviour. -/

/-- Stated from the claim about word-window extraction: the tokens of a
split on whitespace runs (str.split with no argument, which drops empty
words). -/
def runTokens (s : String) : List String :=
  (split_at_whitespace s).filter (fun w => w != "")

/-- Stated from the claim about word-window extraction: split before on
whitespace runs, take the trailing N tokens where N is the count of the
run tokens of the trigger, and return the whole trimmed string when fewer
tokens exist. -/
def wordsForLineRuns (trigger before : String) (numWords : Option Nat) : String :=
  let num := numWords.getD (runTokens trigger).length
  let toks := runTokens before
  if toks.length < num then pyStrip before
  else String.intercalate " " (toks.drop (toks.length - num))

/-- The amended word-window extraction, written as a fold: split on single
whitespace characters keeping empty tokens, return the trimmed whole when
before has at most N tokens, and otherwise cut before at the last
occurrence of each of the trailing N tokens in turn and trim the remaining
suffix. -/
def wordsForLineSpec (trigger before : String) (numWords : Option Nat) : String :=
  let num := numWords.getD (split_at_whitespace trigger).length
  let toks := split_at_whitespace before
  if toks.length ≤ num then pyStrip before
  else
    pyStrip (myDrop before
      (((toks.reverse.take num).foldl
          (fun acc w => pySliceToIdx acc (pyRfind acc w)) before).length))

/-- Shared concrete diagnostic context for witnesses (the state of a fully
constructed definition with an empty actions dictionary). -/
def sampleDbg : DebugCtx :=
  ⟨"test.snippets:1", "trig", "desc", none, some []⟩

/-! ### Helper lemmas -/

theorem cutWords_eq_foldl (l : List String) (bw : String) :
    cutWords bw l = l.foldl (fun acc w => pySliceToIdx acc (pyRfind acc w)) bw := by
  induction l generalizing bw with
  | nil => rfl
  | cons w ws ih => simpa [cutWords] using ih _

theorem splitWsChars_ne_nil (l : List Char) : splitWsChars l ≠ [] := by
  cases l with
  | nil => simp [splitWsChars]
  | cons c cs =>
    by_cases h : pyIsSpace c
    · simp [splitWsChars, h]
    · simp only [splitWsChars, h]
      cases splitWsChars cs <;> simp

theorem split_at_whitespace_length_pos (s : String) :
    0 < (split_at_whitespace s).length := by
  have h := splitWsChars_ne_nil s.data
  simp [split_at_whitespace, List.length_pos]
  exact h

theorem words_for_line_empty (t : String) : words_for_line t "" none = "" := by
  have h1 : (1 : Nat) ≤ (split_at_whitespace t).length := split_at_whitespace_length_pos t
  simp [words_for_line, show split_at_whitespace "" = [""] from rfl, h1]
  rfl

theorem nil_isPrefixOf (l : List Char) : ([] : List Char).isPrefixOf l = true := by
  cases l <;> rfl

/-- The literal pattern of two letters a, used as a concrete regex trigger. -/
def patAA : Regex := .cat (.char 'a') (.char 'a')

/-- The pattern matching one letter a or the empty string (Python a followed
by the alternation bar with an empty right side), which has zero-width
matches. -/
def patAorEps : Regex := .alt (.char 'a') .eps

/-- C7.  Counterexample to the claim that preserve leaves the handle
reporting not-user-set: after preserve on an unset handle, is_set is true
(the source assigns _set = True inside preserve). -/
theorem c7_counterexample :
    ((SnippetUtilCursor.init (1, 0)).preserve (4, 2)).is_set = true ∧
    ¬ (((SnippetUtilCursor.init (1, 0)).preserve (4, 2)).is_set = false) := by
  constructor
  · rfl
  · simp [SnippetUtilCursor.preserve, SnippetUtilCursor.is_set]

/-- C7 (amended).  preserve copies the current real cursor coordinates into
the handle and marks it set: afterwards is_set reports true, so a preserved
cursor is not distinguishable from one explicitly set by a script through
is_set alone. -/
theorem c7_amended (c : SnippetUtilCursor) (realCursor : Nat × Nat) :
    (c.preserve realCursor).cur = realCursor ∧ (c.preserve realCursor).is_set = true :=
  ⟨rfl, rfl⟩

/-- C10.  Evaluation of construction at the failing input: a regex-mode
definition whose trigger pattern fails to compile.  Construction raises
immediately (not deferred to the first user match), but the error that
escapes is the AttributeError from reading self._actions inside
_make_debug_exception, because __init__ runs matches before assigning
self._actions — the original regex error is replaced, not enriched. -/
theorem c10_init_attribute_error :
    snippet_def_init 0 "(" "body" "desc" "r" "test.snippets:7" none
        [("post_expand", "x")]
        (.error "missing ), unterminated subpattern at position 0")
        (fun _ _ => false) =
      .error (.attrError "_actions") := by
  rfl

/-- C1.  Counterexample to the stated equivalence for definitions with no
mode flag among r, w, i and no context predicate: with the orthogonal flag
b set, the word window of the text before the cursor equals the trigger,
yet matches returns false and resets the matched substring, because a
non-blank character precedes the match on the line. -/
theorem c1_counterexample :
    words_for_line "foo" "x foo" none = "foo" ∧
    SnippetDefinition.matches "b" "foo" (.ok .eps) (fun _ _ => true) false
        (fun _ => true) sampleDbg "x foo" = .ok ⟨false, "", none⟩ := by
  constructor
  · rfl
  · rfl

/-- C4.  Counterexample to the claim about the regex mode: for the literal
pattern of two letters a and the text aaa, a match of the pattern ends
exactly at the cursor (start 1, end 3), yet matches returns false, because
the non-overlapping finditer scan only yields the span from 0 to 2.  And
for a pattern with zero-width matches on the text ba, the recorded span is
the first scanned span ending at the cursor (1, 2), not the rightmost one,
although the zero-width span (2, 2) also ends there. -/
theorem c4_counterexample :
    existsMatchToEnd patAA "aaa" = true ∧
    re_match patAA "aaa" = none ∧
    SnippetDefinition.matches "r" "aa" (.ok patAA) (fun _ _ => true) false
        (fun _ => true) sampleDbg "aaa" = .ok ⟨false, "", none⟩ ∧
    re_match patAorEps "ba" = some (1, 2) ∧
    (2, 2) ∈ finditer patAorEps "ba" := by
  refine ⟨rfl, rfl, rfl, rfl, ?_⟩
  decide

/-- C5.  Counterexample to the claim that the word-window extraction splits
on whitespace runs: the trigger containing a doubled space has two run
tokens but three single-character-split tokens (one empty), so the source
takes the trailing three tokens of the text while the claimed run
semantics takes two. -/
theorem c5_counterexample :
    words_for_line "a  b" "p q r s" none = "q r s" ∧
    wordsForLineRuns "a  b" "p q r s" none = "r s" ∧
    words_for_line "a  b" "p q r s" none ≠ wordsForLineRuns "a  b" "p q r s" none := by
  refine ⟨rfl, rfl, ?_⟩
  decide

/-- C6.  Counterexample to the claim that could_match on the empty string is
true in every mode: in regex mode with a pattern that does not match the
empty string, could_match of the empty string is false. -/
theorem c6_counterexample :
    SnippetDefinition.could_match "r" "a" (.ok (.char 'a')) (fun s => s) "" =
      .ok ⟨false, "", none⟩ := by
  rfl

/-- C8.  Counterexample to the claim that with flag t every literal leading
tab of each body line survives into the corresponding line of the computed
initial text: when flag m is also set, a body line consisting of one tab is
right-trimmed to the empty line, losing its leading tab. -/
theorem c8_counterexample :
    (bodyLines "x\n\t")[1]? = some "\t" ∧
    leadingTabs "\t" = 1 ∧
    computeInitialText "tm" (fun _ => "") "" "x\n\t" = "x\n" ∧
    ("x\n".data.contains '\t') = false := by
  refine ⟨rfl, rfl, rfl, ?_⟩
  decide

/-- C2.  The cursor-guard protocol of _execute_action: when the script set
the cursor handle, the real cursor is moved exactly to the handle
coordinates and the call succeeds; otherwise an invalidated mark or a
changed line up to the cursor raises the usage error, and an unchanged line
restores the cursor to the surviving mark position. -/
theorem c2_cursor_guard_protocol {α : Type}
    (script : EditorState → EditorState × SnipResult α) (s : EditorState)
    (s1 : EditorState) (snip : SnipResult α)
    (hrun : script { s with markPos := some s.cursor } = (s1, snip)) :
    (snip.cursor.is_set = true →
        execute_action script s =
          .ok ({ s1 with cursor := snip.cursor.cur, markPos := s.markPos }, snip))
    ∧ (snip.cursor.is_set = false → s1.markPos = none →
        execute_action script s = .error (.usage pebkacMsg))
    ∧ (∀ mp, snip.cursor.is_set = false → s1.markPos = some mp →
        line_till_cursor { s1 with cursor := mp } ≠
          line_till_cursor { s with markPos := some s.cursor } →
        execute_action script s = .error (.usage pebkacMsg))
    ∧ (∀ mp, snip.cursor.is_set = false → s1.markPos = some mp →
        line_till_cursor { s1 with cursor := mp } =
          line_till_cursor { s with markPos := some s.cursor } →
        execute_action script s =
          .ok ({ s1 with cursor := mp, markPos := s.markPos }, snip)) := by
  refine ⟨?_, ?_, ?_, ?_⟩
  · intro hset
    simp [execute_action, hrun, hset]
  · intro hset hmark
    simp [execute_action, hrun, hset, hmark]
  · intro mp hset hmark hneq
    rw [hmark] at hneq
    simp [execute_action, hrun, hset, hmark, hneq]
  · intro mp hset hmark heq
    rw [hmark] at heq
    simp [execute_action, hrun, hset, hmark, heq]

/-- C2 (witness).  A script that edits the cursor line without setting the
handle makes the guard raise the usage error. -/
theorem c2_cursor_guard_witness :
    execute_action
      (fun st => ({ st with lines := ["edited"] },
                  (⟨⟨(0, 0), false⟩, (0 : Nat)⟩ : SnipResult Nat)))
      ⟨["ab"], (0, 1), none⟩ = .error (.usage pebkacMsg) := by
  exact (c2_cursor_guard_protocol
      (fun st => ({ st with lines := ["edited"] },
                  (⟨⟨(0, 0), false⟩, (0 : Nat)⟩ : SnipResult Nat)))
      ⟨["ab"], (0, 1), none⟩
      ⟨["edited"], (0, 1), some (0, 1)⟩
      ⟨⟨(0, 0), false⟩, (0 : Nat)⟩ rfl).2.2.1 (0, 1) rfl rfl (by decide)

/-- C9.  do_post_expand with a post_expand action runs the action with the
context of the last entry of the snippet stack (the parent frame), stores
the resulting context back into that same entry (its payload is kept), and
returns exactly whether the script set the cursor. -/
theorem c9_post_expand_parent_context {α : Type}
    (act : α → EditorState → EditorState × SnipResult α)
    (stack : List (SnipInstance α)) (s : EditorState) (top : SnipInstance α)
    (s1 : EditorState) (snip : SnipResult α)
    (htop : stack.getLast? = some top)
    (hact : execute_action (act top.context) s = .ok (s1, snip)) :
    do_post_expand (some act) stack s =
      .ok (snip.cursor.is_set,
           stack.dropLast ++ [{ top with context := snip.context }], s1) := by
  simp [do_post_expand, htop, hact]

/-- C9 (witness).  A concrete nested stack: the action sees the parent
context 3, stores 4 back into the same instance, and reports the cursor as
set. -/
theorem c9_post_expand_witness :
    do_post_expand
      (some (fun c st => (st, (⟨⟨(1, 0), true⟩, c + 1⟩ : SnipResult Nat))))
      [⟨5, (3 : Nat)⟩] ⟨["x"], (0, 0), none⟩ =
      .ok (true, [⟨5, 4⟩], ⟨["x"], (1, 0), none⟩) := by
  exact c9_post_expand_parent_context
    (fun c st => (st, (⟨⟨(1, 0), true⟩, c + 1⟩ : SnipResult Nat)))
    [⟨5, (3 : Nat)⟩] ⟨["x"], (0, 0), none⟩ ⟨5, 3⟩
    ⟨["x"], (1, 0), none⟩ ⟨⟨(1, 0), true⟩, 4⟩ rfl rfl

/-- C3.  The flag-b post filter: in matches and in could_match alike, when
the mode-specific match succeeded and the text before the cursor — with
trailing whitespace stripped and the length of the recorded matched
substring cut from its end as the source does — still holds a character
other than space or tab, the call returns false and the matched substring
is reset to empty (in could_match, the filter applies to the text after
the blank-suffix reassignment at the top of that method). -/
theorem c3_b_flag_rejects :
    (∀ (opts trigger : String) (pat : Except String Regex)
        (wb : Char → Char → Bool) (hasCtx : Bool) (ctxTruthy : String → Bool)
        (dbg : DebugCtx) (before : String) (m : MatchOut),
      hasOpt opts 'b' = true →
      SnippetDefinition.matches_core opts trigger pat wb dbg before = .ok m →
      m.ok = true →
      pyStripSpTab (pySliceToNeg (pyRstrip before) m.matched.length) ≠ "" →
      SnippetDefinition.matches opts trigger pat wb hasCtx ctxTruthy dbg before =
        .ok ⟨false, "", m.lastRe⟩)
    ∧ (∀ (opts trigger : String) (pat : Except String Regex)
        (substF : String → String) (before : String) (m : MatchOut),
      hasOpt opts 'b' = true →
      SnippetDefinition.could_match_core opts trigger pat substF before = .ok m →
      m.ok = true →
      pyStripSpTab (pySliceToNeg (pyRstrip (cmBlanked before)) m.matched.length) ≠ "" →
      SnippetDefinition.could_match opts trigger pat substF before =
        .ok ⟨false, "", m.lastRe⟩) := by
  constructor
  · intro opts trigger pat wb hasCtx ctxTruthy dbg before m hb hcore hok hcond
    simp [SnippetDefinition.matches, Except.map, hcore, bCheck, hb, hok, hcond, ctxCheck]
  · intro opts trigger pat substF before m hb hcore hok hcond
    simp [SnippetDefinition.could_match, Except.map, hcore, bCheck, hb, hok, hcond]

/-- C3 (witness).  Concrete rejections: matches with flag b on a trigger
preceded by a non-blank character, and could_match with flag b on a word
prefix preceded by a non-blank character. -/
theorem c3_b_flag_witness :
    SnippetDefinition.matches "b" "foo" (.ok .eps) (fun _ _ => true) false
        (fun _ => true) sampleDbg "y foo" = .ok ⟨false, "", none⟩ ∧
    SnippetDefinition.could_match "b" "foobar" (.ok .eps) (fun w => w)
        "y foo" = .ok ⟨false, "", none⟩ := by
  constructor
  · exact c3_b_flag_rejects.1 "b" "foo" (.ok .eps) (fun _ _ => true) false
      (fun _ => true) sampleDbg "y foo" ⟨true, "foo", none⟩ rfl rfl rfl (by decide)
  · exact c3_b_flag_rejects.2 "b" "foobar" (.ok .eps) (fun w => w)
      "y foo" ⟨true, "foo", none⟩ rfl rfl rfl (by decide)

/-- C1 (amended).  For a definition with no mode flag among r, w, i, no
flag b, and no context predicate, matches succeeds exactly when the
trailing word window of the text before the cursor equals the trigger, and
on success the recorded matched substring is the full trigger text. -/
theorem c1_amended (opts trigger : String) (pat : Except String Regex)
    (wb : Char → Char → Bool) (ctxTruthy : String → Bool) (dbg : DebugCtx)
    (before : String)
    (hr : hasOpt opts 'r' = false) (hw : hasOpt opts 'w' = false)
    (hi : hasOpt opts 'i' = false) (hb : hasOpt opts 'b' = false) :
    ∃ m : MatchOut,
      SnippetDefinition.matches opts trigger pat wb false ctxTruthy dbg before = .ok m
      ∧ (m.ok = true ↔ words_for_line trigger before none = trigger)
      ∧ (m.ok = true → m.matched = trigger) := by
  by_cases heq : words_for_line trigger before none = trigger
  · refine ⟨⟨true, trigger, none⟩, ?_, by simp [heq], fun _ => rfl⟩
    simp [SnippetDefinition.matches, SnippetDefinition.matches_core, Except.map,
      hr, hw, hi, hb, heq, bCheck, ctxCheck]
  · refine ⟨⟨false, "", none⟩, ?_, by simp [heq], by simp⟩
    simp [SnippetDefinition.matches, SnippetDefinition.matches_core, Except.map,
      hr, hw, hi, hb, heq, bCheck, ctxCheck]

/-- C1 (witness).  The amended statement at the scenario input: trigger foo
with empty options matches the text xx foo, word window foo. -/
theorem c1_amended_witness :
    ∃ m : MatchOut,
      SnippetDefinition.matches "" "foo" (.ok .eps) (fun _ _ => true) false
          (fun _ => true) sampleDbg "xx foo" = .ok m
      ∧ (m.ok = true ↔ words_for_line "foo" "xx foo" none = "foo")
      ∧ (m.ok = true → m.matched = "foo") :=
  c1_amended "" "foo" (.ok .eps) (fun _ _ => true) (fun _ => true) sampleDbg
    "xx foo" rfl rfl rfl rfl

/-- C5 (amended).  The word-window extraction splits on single whitespace
characters keeping empty tokens; it agrees with the fold formulation that
cuts before at the last occurrence of each of the trailing N tokens in
turn, where N is the token count of the trigger under the same splitting
(an explicit count overrides it); and whenever before has at most N tokens
it returns the whole of before with surrounding whitespace trimmed. -/
theorem c5_amended (trigger before : String) (numWords : Option Nat) :
    words_for_line trigger before numWords = wordsForLineSpec trigger before numWords
    ∧ ((split_at_whitespace before).length ≤
          numWords.getD (split_at_whitespace trigger).length →
        words_for_line trigger before numWords = pyStrip before) := by
  constructor
  · unfold words_for_line wordsForLineSpec
    dsimp only
    split
    · rfl
    · rw [cutWords_eq_foldl]
  · intro h
    unfold words_for_line
    simp [h]

/-- C5 (witness).  The amended statement at a concrete input with fewer
tokens than the trigger requests. -/
theorem c5_amended_witness :
    words_for_line "a b c" "x" none = pyStrip "x" :=
  (c5_amended "a b c" "x" none).2 (by decide)

theorem buildLines_t_no_m (opts : String) (f : Nat → String) (indent : String)
    (ht : hasOpt opts 't' = true) (hm : hasOpt opts 'm' = false) :
    ∀ (ls : List String) (i0 j : Nat) (line : String), ls[j]? = some line →
      (buildLines opts f indent i0 ls)[j]? =
        some ((if i0 + j ≠ 0 then indent ++ f 0 else f 0) ++ line) := by
  intro ls
  induction ls with
  | nil => intro i0 j line h; simp at h
  | cons hd tl ih =>
    intro i0 j line h
    cases j with
    | zero =>
      simp at h
      subst h
      simp [buildLines, ht, hm, myDrop]
    | succ j =>
      simp at h
      have := ih (i0 + 1) j line h
      simp [buildLines, ht, hm]
      rw [this]
      have harith : ¬ (i0 + 1 + j = 0) := by omega
      have harith2 : ¬ (i0 + (j + 1) = 0) := by omega
      simp [harith, harith2]

/-- C8 (amended).  With flag t and without flag m, the launcher performs no
tab conversion and no trimming on body lines: every line of the computed
initial text is exactly its body line, unchanged (leading literal tabs
included), preceded only by the zero-tab output of the indent utility and,
on every line after the first, by the indent of the launch line. -/
theorem c8_amended (opts : String) (f : Nat → String) (textBefore value : String)
    (ht : hasOpt opts 't' = true) (hm : hasOpt opts 'm' = false)
    (j : Nat) (line : String) (hline : (bodyLines value)[j]? = some line) :
    (buildLines opts f (indentOf textBefore) 0 (bodyLines value))[j]? =
      some ((if j ≠ 0 then indentOf textBefore ++ f 0 else f 0) ++ line) := by
  have := buildLines_t_no_m opts f (indentOf textBefore) ht hm (bodyLines value) 0 j
    line hline
  simpa using this

/-- C8 (witness).  A concrete launch with flag t only: the second body line
keeps its literal leading tab, prefixed by the launch-line indent. -/
theorem c8_amended_witness :
    (buildLines "t" (fun _ => "") (indentOf "  x := 1") 0 (bodyLines "a\n\tb"))[1]? =
      some ("  " ++ "" ++ "\tb") := by
  have h := c8_amended "t" (fun _ => "") "  x := 1" "a\n\tb" rfl rfl 1 "\tb" rfl
  simpa using h

/-- C6 (amended).  could_match of the empty preceding text is true for every
trigger in every mode except the regex mode: there it runs the full-match
test, so it is true exactly when the trigger pattern matches the empty
string.  The host substitution used by the w mode returns the empty string
unchanged (hypothesis hsub). -/
theorem c6_amended (opts trigger : String) (pat : Except String Regex)
    (substF : String → String) (hsub : substF "" = "") :
    (hasOpt opts 'r' = false →
      SnippetDefinition.could_match opts trigger pat substF "" = .ok ⟨true, "", none⟩)
    ∧ (∀ r : Regex, hasOpt opts 'r' = true →
      SnippetDefinition.could_match opts trigger (.ok r) substF "" =
        .ok (if (pyMatchEnds r []).isEmpty then ⟨false, "", none⟩
             else ⟨true, "", some (0, 0)⟩)) := by
  have hwords : words_for_line trigger "" none = "" := words_for_line_empty trigger
  have hblank : cmBlanked "" = "" := rfl
  constructor
  · intro hr
    unfold SnippetDefinition.could_match SnippetDefinition.could_match_core
    rw [hblank]
    by_cases hw : hasOpt opts 'w'
    · simp [hr, hw, hwords, hsub, nil_isPrefixOf, Except.map, bCheck,
        pySliceToNeg, pyStripSpTab]
    · by_cases hi : hasOpt opts 'i'
      · simp [hr, hw, hi, hwords, nil_isPrefixOf, Except.map, bCheck,
          pySliceToNeg, pyStripSpTab]
      · simp [hr, hw, hi, hwords, nil_isPrefixOf, Except.map, bCheck,
          pySliceToNeg, pyStripSpTab]
  · intro r hr
    unfold SnippetDefinition.could_match SnippetDefinition.could_match_core
    rw [hblank]
    cases hre : pyMatchEnds r [] with
    | nil =>
      have hfind : finditer r "" = [] := by
        simp [finditer, finditerAux, pyMatchAt, hre]
      simp [hr, hwords, Except.map, bCheck, re_match, hfind, reMatchLoop]
    | cons rem rest =>
      have hfind : finditer r "" = [(0, 0)] := by
        simp [finditer, finditerAux, pyMatchAt, hre]
      simp [hr, hwords, Except.map, bCheck, re_match, hfind, reMatchLoop,
        spanText, myTake, myDrop, pySliceToNeg, pyStripSpTab]

/-- C6 (witness).  The amended statement at concrete inputs: a plain trigger
with empty options, and a regex trigger requiring one character, both
probed with the empty preceding text. -/
theorem c6_amended_witness :
    SnippetDefinition.could_match "" "print" (.ok .eps) (fun w => w) "" =
      .ok ⟨true, "", none⟩ ∧
    SnippetDefinition.could_match "r" "a" (.ok (.char 'a')) (fun w => w) "" =
      .ok (if (pyMatchEnds (.char 'a') []).isEmpty then ⟨false, "", none⟩
           else ⟨true, "", some (0, 0)⟩) := by
  constructor
  · exact (c6_amended "" "print" (.ok .eps) (fun w => w) rfl).1 rfl
  · exact (c6_amended "r" "a" (.ok (.char 'a')) (fun w => w) rfl).2 (.char 'a') rfl

theorem pyMatchEnds_length_le (r : Regex) :
    ∀ (l rem : List Char), rem ∈ pyMatchEnds r l → rem.length ≤ l.length := by
  induction r with
  | eps =>
    intro l rem h
    simp [pyMatchEnds] at h
    simp [h]
  | char c =>
    intro l rem h
    cases l with
    | nil => simp [pyMatchEnds] at h
    | cons d rest =>
      by_cases hd : d = c
      · simp [pyMatchEnds, hd] at h
        simp [h]
      · simp [pyMatchEnds, hd] at h
  | cat a b iha ihb =>
    intro l rem h
    simp only [pyMatchEnds, List.mem_flatMap] at h
    obtain ⟨mid, hmid, hrem⟩ := h
    exact le_trans (ihb mid rem hrem) (iha l mid hmid)
  | alt a b iha ihb =>
    intro l rem h
    simp only [pyMatchEnds, List.mem_append] at h
    rcases h with h | h
    · exact iha l rem h
    · exact ihb l rem h

theorem pyMatchAt_bounds (r : Regex) (s : String) (p e : Nat)
    (hp : p ≤ s.length) (h : pyMatchAt r s p = some e) :
    p ≤ e ∧ e ≤ s.length := by
  unfold pyMatchAt at h
  cases hh : (pyMatchEnds r (s.data.drop p)).head? with
  | none => rw [hh] at h; simp at h
  | some rem =>
    rw [hh] at h
    simp at h
    have hmem : rem ∈ pyMatchEnds r (s.data.drop p) := List.mem_of_mem_head? hh
    have hlen : rem.length ≤ (s.data.drop p).length := pyMatchEnds_length_le r _ rem hmem
    have hdl : (s.data.drop p).length = s.data.length - p := List.length_drop p s.data
    have hsl : s.length = s.data.length := rfl
    omega

theorem finditerAux_start_le (r : Regex) (s : String) :
    ∀ (fuel p : Nat) (sp : Nat × Nat), sp ∈ finditerAux r s fuel p → p ≤ sp.1 := by
  intro fuel
  induction fuel with
  | zero => intro p sp h; simp [finditerAux] at h
  | succ fuel ih =>
    intro p sp h
    unfold finditerAux at h
    by_cases hp : s.length < p
    · simp [hp] at h
    · simp only [hp, if_false] at h
      cases hm : pyMatchAt r s p with
      | none =>
        rw [hm] at h
        have := ih (p + 1) sp h
        omega
      | some e =>
        rw [hm] at h
        rcases List.mem_cons.mp h with rfl | h
        · exact le_refl _
        · have hb := pyMatchAt_bounds r s p e (by omega) hm
          by_cases hep : e = p
          · have := ih (p + 1) sp (by simpa [hep] using h)
            omega
          · have := ih e sp (by simpa [hep] using h)
            omega

theorem finditerAux_pairwise (r : Regex) (s : String) :
    ∀ (fuel p : Nat),
      List.Pairwise (fun a b => a.1 < b.1) (finditerAux r s fuel p) := by
  intro fuel
  induction fuel with
  | zero => intro p; simp [finditerAux]
  | succ fuel ih =>
    intro p
    unfold finditerAux
    by_cases hp : s.length < p
    · simp [hp]
    · simp only [hp, if_false]
      cases hm : pyMatchAt r s p with
      | none => exact ih (p + 1)
      | some e =>
        refine List.pairwise_cons.mpr ⟨?_, ?_⟩
        · intro b hb
          have hbd := pyMatchAt_bounds r s p e (by omega) hm
          by_cases hep : e = p
          · have := finditerAux_start_le r s fuel (p + 1) b (by simpa [hep] using hb)
            omega
          · have := finditerAux_start_le r s fuel e b (by simpa [hep] using hb)
            omega
        · by_cases hep : e = p
          · simpa [hep] using ih (p + 1)
          · simpa [hep] using ih e

theorem finditer_pairwise (r : Regex) (s : String) :
    List.Pairwise (fun a b => a.1 < b.1) (finditer r s) :=
  finditerAux_pairwise r s (s.length + 2) 0

theorem reMatchLoop_isSome_iff (n : Nat) :
    ∀ l : List (Nat × Nat), (reMatchLoop n l).isSome ↔ ∃ sp ∈ l, sp.2 = n := by
  intro l
  induction l with
  | nil => simp [reMatchLoop]
  | cons sp rest ih =>
    by_cases h : sp.2 = n
    · simp [reMatchLoop, h]
    · simp [reMatchLoop, h, ih]

theorem reMatchLoop_first (n : Nat) :
    ∀ (l : List (Nat × Nat)), List.Pairwise (fun a b => a.1 < b.1) l →
      ∀ sp, reMatchLoop n l = some sp →
        sp ∈ l ∧ sp.2 = n ∧ ∀ sp' ∈ l, sp'.2 = n → sp.1 ≤ sp'.1 := by
  intro l
  induction l with
  | nil =>
    intro _ sp h
    simp [reMatchLoop] at h
  | cons hd rest ih =>
    intro hp sp h
    have hp' := List.pairwise_cons.mp hp
    by_cases hhd : hd.2 = n
    · have hsp : sp = hd := by
        simp [reMatchLoop, hhd] at h
        exact h.symm
      subst hsp
      refine ⟨List.mem_cons_self _ _, hhd, ?_⟩
      intro sp' hsp' _
      rcases List.mem_cons.mp hsp' with rfl | hmem
      · exact le_refl _
      · exact le_of_lt (hp'.1 sp' hmem)
    · have hloop : reMatchLoop n rest = some sp := by
        simpa [reMatchLoop, hhd] using h
      obtain ⟨hmem, hend, hmin⟩ := ih hp'.2 sp hloop
      refine ⟨List.mem_cons_of_mem _ hmem, hend, ?_⟩
      intro sp' hsp' hend'
      rcases List.mem_cons.mp hsp' with rfl | hmem'
      · exact absurd hend' hhd
      · exact hmin sp' hmem' hend'

/-- C4 (amended).  The regex mode runs the non-overlapping left-to-right
scan of re.finditer: matches succeeds exactly when that scan yields a span
ending at the cursor position, and the recorded span is the first such
yielded span (the one with the least start among the yielded candidates,
not the rightmost match of the pattern). -/
theorem c4_amended (r : Regex) (s : String) :
    ((re_match r s).isSome ↔ ∃ sp ∈ finditer r s, sp.2 = s.length)
    ∧ (∀ sp, re_match r s = some sp →
        sp ∈ finditer r s ∧ sp.2 = s.length ∧
        ∀ sp' ∈ finditer r s, sp'.2 = s.length → sp.1 ≤ sp'.1) := by
  constructor
  · exact reMatchLoop_isSome_iff s.length (finditer r s)
  · intro sp h
    exact reMatchLoop_first s.length (finditer r s) (finditer_pairwise r s) sp h

/-- C4 (witness).  The amended statement at a concrete scan: for the
two-letter pattern on the text baa the scan yields the span from 1 to 3,
which ends at the cursor, so the full match succeeds and returns it. -/
theorem c4_amended_witness :
    (re_match patAA "baa").isSome ∧
    (1, 3) ∈ finditer patAA "baa" ∧ (1, 3).2 = "baa".length := by
  refine ⟨(c4_amended patAA "baa").1.mpr ⟨(1, 3), by decide, by decide⟩, ?_, ?_⟩
  · have h := (c4_amended patAA "baa").2 (1, 3) rfl
    exact h.1
  · decide

/-- C7 (amended, witness).  The amended statement at a concrete handle and
real cursor. -/
theorem c7_amended_witness :
    ((SnippetUtilCursor.init (3, 1)).preserve (7, 4)).cur = (7, 4) ∧
    ((SnippetUtilCursor.init (3, 1)).preserve (7, 4)).is_set = true :=
  c7_amended (SnippetUtilCursor.init (3, 1)) (7, 4)
